import Mathlib

/-!
Verification of the discord-quest-helper quest-automation frontend.

The repository ships a Tauri application: the TypeScript IPC bridge
(`src/api/tauri.ts`) and the Vue views (`Settings.vue`, the active-quest
panel, the game selector and the debug view) are present in the sources;
the Rust backend (`src-tauri`, quest completer, identity provider) and the
Pinia quests store are not.  Functions taken from the frontend sources are
embedded directly; parts of the backend/store that a claim depends on are
modelled from the specification and carry a doc comment starting
`Modelled from the spec:`.
-/

namespace DQH

/-! ## Quest session progress (spec §4.4, claim C1)

The session progress machinery lives in the Rust backend
(`quest_completer.rs`), which is not part of the available sources; the
TS bridge only declares `startVideoQuest` / `forceVideoProgress`
wrappers.  The update operations are therefore modelled from the spec. -/

/-- The live execution context for one quest (spec §3 `QuestSession`,
amounts in whole seconds). -/
structure QuestSessionState where
  quest_id : String
  target_amount : Nat
  local_pending_progress : Nat
  submitted_progress : Nat
deriving DecidableEq

/-- A progress-updating operation on a running session: either one tick of
the submission loop or a `forceProgress` escape-hatch call. -/
inductive ProgressOp where
  | tick (amount : Nat)
  | force (value : Nat)
deriving DecidableEq

/-- Modelled from the spec: one tick of `startVideoQuest`'s fixed-period
loop accumulates the per-tick amount in `local_pending_progress` and,
once the submission is confirmed, advances `submitted_progress`, issuing
"a final exact-length submission … rather than overshooting", i.e. the
confirmed total is clamped at `target_amount` (spec §4.4, §9). -/
def applyTick (s : QuestSessionState) (amount : Nat) : QuestSessionState :=
  { s with
    local_pending_progress := s.local_pending_progress + amount,
    submitted_progress := min s.target_amount (s.submitted_progress + amount) }

/-- Modelled from the spec: `forceProgress(quest_id, timestamp)` submits an
absolute progress value, but "must re-validate that the resulting value is
monotonically non-decreasing relative to `submitted_progress`" (spec §4.4);
a value below the current confirmed total is rejected, and the installed
value never exceeds `target_amount` (spec §8 invariant). -/
def applyForce (s : QuestSessionState) (value : Nat) : QuestSessionState :=
  if value < s.submitted_progress then s
  else { s with submitted_progress := min s.target_amount value }

/-- Apply one progress operation. -/
def applyOp (s : QuestSessionState) : ProgressOp → QuestSessionState
  | ProgressOp.tick a => applyTick s a
  | ProgressOp.force v => applyForce s v

/-- Run a whole trace of progress operations over a session. -/
def runOps (s : QuestSessionState) : List ProgressOp → QuestSessionState
  | [] => s
  | op :: ops => runOps (applyOp s op) ops

lemma applyOp_target (s : QuestSessionState) (op : ProgressOp) :
    (applyOp s op).target_amount = s.target_amount := by
  cases op with
  | tick a => rfl
  | force v =>
    simp only [applyOp, applyForce]
    split <;> rfl

lemma applyOp_submitted_le_target (s : QuestSessionState) (op : ProgressOp)
    (hs : s.submitted_progress ≤ s.target_amount) :
    (applyOp s op).submitted_progress ≤ (applyOp s op).target_amount := by
  cases op with
  | tick a =>
    simp only [applyOp, applyTick]
    exact Nat.min_le_left _ _
  | force v =>
    simp only [applyOp, applyForce]
    split
    · exact hs
    · exact Nat.min_le_left _ _

lemma applyOp_submitted_mono (s : QuestSessionState) (op : ProgressOp)
    (hs : s.submitted_progress ≤ s.target_amount) :
    s.submitted_progress ≤ (applyOp s op).submitted_progress := by
  cases op with
  | tick a =>
    simp only [applyOp, applyTick]
    exact le_min hs (Nat.le_add_right _ _)
  | force v =>
    simp only [applyOp, applyForce]
    split
    · exact le_rfl
    · exact le_min hs (Nat.le_of_not_lt (by assumption))

lemma runOps_target (s : QuestSessionState) (ops : List ProgressOp) :
    (runOps s ops).target_amount = s.target_amount := by
  induction ops generalizing s with
  | nil => rfl
  | cons op ops ih => rw [runOps, ih, applyOp_target]

/-- C1 : over every trace of tick submissions and `forceProgress` calls,
`submitted_progress` is monotonically non-decreasing and never exceeds
`target_amount`; `forceProgress` re-validates monotonicity and keeps a
lower value out. -/
theorem submitted_progress_monotone_bounded (s : QuestSessionState)
    (ops : List ProgressOp) (hs : s.submitted_progress ≤ s.target_amount) :
    s.submitted_progress ≤ (runOps s ops).submitted_progress
    ∧ (runOps s ops).submitted_progress ≤ (runOps s ops).target_amount
    ∧ (∀ v, v < s.submitted_progress → applyForce s v = s) := by
  refine ⟨?_, ?_, ?_⟩
  · induction ops generalizing s with
    | nil => exact le_rfl
    | cons op ops ih =>
      rw [runOps]
      exact le_trans (applyOp_submitted_mono s op hs)
        (ih _ (applyOp_submitted_le_target s op hs))
  · induction ops generalizing s with
    | nil => exact hs.trans_eq rfl
    | cons op ops ih =>
      rw [runOps]
      exact ih _ (applyOp_submitted_le_target s op hs)
  · intro v hv
    simp [applyForce, hv]

/-- Concrete instance of C1: a 600-second video session driven by ticks and
a force call keeps `submitted_progress` monotone and below target. -/
theorem submitted_progress_monotone_bounded_witness :
    (⟨"quest-a", 600, 0, 0⟩ : QuestSessionState).submitted_progress
      ≤ (runOps ⟨"quest-a", 600, 0, 0⟩
          [ProgressOp.tick 50, ProgressOp.force 100, ProgressOp.tick 500,
           ProgressOp.tick 50]).submitted_progress
    ∧ (runOps ⟨"quest-a", 600, 0, 0⟩
          [ProgressOp.tick 50, ProgressOp.force 100, ProgressOp.tick 500,
           ProgressOp.tick 50]).submitted_progress
      ≤ (runOps ⟨"quest-a", 600, 0, 0⟩
          [ProgressOp.tick 50, ProgressOp.force 100, ProgressOp.tick 500,
           ProgressOp.tick 50]).target_amount
    ∧ (∀ v, v < (⟨"quest-a", 600, 0, 0⟩ : QuestSessionState).submitted_progress →
        applyForce ⟨"quest-a", 600, 0, 0⟩ v = ⟨"quest-a", 600, 0, 0⟩) :=
  submitted_progress_monotone_bounded ⟨"quest-a", 600, 0, 0⟩
    [ProgressOp.tick 50, ProgressOp.force 100, ProgressOp.tick 500,
     ProgressOp.tick 50] (by decide)

/-! ## Video quest tick arithmetic (spec §4.4 scenario, claim C4)

`startVideoQuest(questId, secondsNeeded, initialProgress, speedMultiplier,
heartbeatInterval)` is declared in `src/api/tauri.ts` (lines 88-102); the
loop body is backend code modelled from the spec. -/

/-- Modelled from the spec: each tick of the video loop accrues
`heartbeat_interval * speed_multiplier` simulated seconds (spec §4.4). -/
def videoPerTick (heartbeatInterval speedMultiplier : Nat) : Nat :=
  heartbeatInterval * speedMultiplier

/-- Modelled from the spec: confirmed progress after `k` ticks, clamped at
the target by the final exact-length submission (spec §4.4, §9). -/
def videoSubmittedAfter (target initial perTick k : Nat) : Nat :=
  min target (initial + k * perTick)

/-- Modelled from the spec: the session is `Completed` once
`submitted_progress >= target_amount` (spec §4.4). -/
def videoCompletedAfter (target initial perTick k : Nat) : Bool :=
  target ≤ videoSubmittedAfter target initial perTick k

/-- Wall-clock seconds consumed by `k` ticks of a loop whose period is the
heartbeat interval (spec §4.4). -/
def videoWallClock (heartbeatInterval k : Nat) : Nat :=
  k * heartbeatInterval

/-- C4 : with `target = 600 s`, `initial_progress = 0`,
`speed_multiplier = 5` and `heartbeat_interval = 10 s`, each tick accrues
50 simulated seconds, the first tick submits 50 s, and the session reaches
`Completed` after 12 ticks — 120 s of wall clock, not 600 s. -/
theorem video_quest_600s_5x_completes_in_12_ticks :
    videoPerTick 10 5 = 50
    ∧ videoSubmittedAfter 600 0 (videoPerTick 10 5) 1 = 50
    ∧ videoCompletedAfter 600 0 (videoPerTick 10 5) 12 = true
    ∧ videoCompletedAfter 600 0 (videoPerTick 10 5) 11 = false
    ∧ videoWallClock 10 12 = 120
    ∧ videoWallClock 10 12 < 600 := by
  decide

/-! ## Client-identity ("super properties") provider (spec §4.2, claims C2 & C5)

`src/api/tauri.ts` declares the three modes
(`type SuperPropertiesMode = 'cdp' | 'remote_js' | 'default'`, lines
260-272) and the `autoFetchSuperProperties` / `retrySuperProperties`
wrappers; the acquisition logic itself is backend code modelled from the
spec. -/

/-- The three acquisition modes, in decreasing order of confidence
(`src/api/tauri.ts` line 260; spec §4.2: introspected / derived /
fallback). -/
inductive SuperPropertiesMode where
  | cdp
  | remote_js
  | default
deriving DecidableEq

/-- The client-identity payload (spec §3 `ClientIdentity`, matching the
`DebugInfo` fields of `src/api/tauri.ts` lines 221-228). -/
structure ClientIdentity where
  mode : SuperPropertiesMode
  encoded_value : String
  build_number : Option Nat
  launch_id : String
  heartbeat_session_id : String
  signature : String
deriving DecidableEq

/-- The data recovered from a running real client via the remote-debugging
endpoint (spec §4.2, introspected mode). -/
structure IntrospectedData where
  build_number : Nat
  launch_id : String
  heartbeat_session_id : String
  signature : String
deriving DecidableEq

/-- The outcomes of the two fallible acquisition tiers: `cdp = none` means
no debuggable client instance is reachable, `remoteJs = none` means the
public web bundle could not be fetched or parsed. -/
structure IdentityEnv where
  cdp : Option IntrospectedData
  remoteJs : Option Nat
deriving DecidableEq

/-- Modelled from the spec: the wire-format encoding of the identity
metadata expected by the remote API (spec §4.2 "encodes them into the
wire-format"); abstracted as a tagged rendering of the build number, which
always begins with a fixed non-empty marker. -/
def encodeSuperProperties (buildNumber : Nat) : String :=
  "x-super-properties;build=" ++ toString buildNumber

/-- Modelled from the spec: the hardcoded last-known-good fallback build
number (spec §4.2 fallback tier). -/
def fallbackBuildNumber : Nat := 250000

/-- Modelled from the spec: a single acquisition pass, attempting
introspected (`cdp`), then derived (`remote_js`), then the static fallback
(`default`) (spec §4.2 `fetch()`). -/
def acquireIdentity (env : IdentityEnv) : ClientIdentity :=
  match env.cdp with
  | some d =>
    { mode := SuperPropertiesMode.cdp,
      encoded_value := encodeSuperProperties d.build_number,
      build_number := some d.build_number,
      launch_id := d.launch_id,
      heartbeat_session_id := d.heartbeat_session_id,
      signature := d.signature }
  | none =>
    match env.remoteJs with
    | some b =>
      { mode := SuperPropertiesMode.remote_js,
        encoded_value := encodeSuperProperties b,
        build_number := some b,
        launch_id := "generated-launch-id",
        heartbeat_session_id := "generated-heartbeat-session-id",
        signature := "" }
    | none =>
      { mode := SuperPropertiesMode.default,
        encoded_value := encodeSuperProperties fallbackBuildNumber,
        build_number := some fallbackBuildNumber,
        launch_id := "generated-launch-id",
        heartbeat_session_id := "generated-heartbeat-session-id",
        signature := "" }

/-- The process-wide memoized identity (spec §4.2: `fetch()` memoizes the
result and its mode). -/
structure ProviderState where
  memo : Option ClientIdentity
deriving DecidableEq

/-- The provider state at process start: nothing memoized yet. -/
def initProviderState : ProviderState := { memo := none }

/-- Modelled from the spec: `fetch()` returns the memoized identity when
one exists and otherwise runs one acquisition pass and memoizes its
result (spec §4.2). -/
def fetchIdentity (st : ProviderState) (env : IdentityEnv) :
    ClientIdentity × ProviderState :=
  match st.memo with
  | some ident => (ident, st)
  | none => (acquireIdentity env, { memo := some (acquireIdentity env) })

lemma encodeSuperProperties_ne_empty (b : Nat) :
    encodeSuperProperties b ≠ "" := by
  intro h
  have hlen := congrArg (fun s => s.data.length) h
  simp only [encodeSuperProperties, String.data_append, List.length_append] at hlen
  have h25 : ("x-super-properties;build=" : String).data.length = 25 := by decide
  rw [h25] at hlen
  simp at hlen

lemma acquireIdentity_ne_empty (env : IdentityEnv) :
    (acquireIdentity env).encoded_value ≠ "" := by
  unfold acquireIdentity
  rcases hc : env.cdp with _ | d
  · rcases hr : env.remoteJs with _ | b
    · exact encodeSuperProperties_ne_empty _
    · exact encodeSuperProperties_ne_empty _
  · exact encodeSuperProperties_ne_empty _

/-- C2 : for every environment — including the one in which both
introspection and derivation fail — `fetch()` returns (rather than
raising) a `ClientIdentity` whose `encoded_value` is non-empty; when both
tiers fail the result is the `fallback` (`default`) mode. -/
theorem fetch_total_nonempty (env : IdentityEnv) :
    (fetchIdentity initProviderState env).1.encoded_value ≠ ""
    ∧ (fetchIdentity initProviderState
        { cdp := none, remoteJs := none }).1.mode = SuperPropertiesMode.default
    ∧ (fetchIdentity initProviderState
        { cdp := none, remoteJs := none }).1.encoded_value ≠ "" := by
  refine ⟨?_, rfl, ?_⟩
  · exact acquireIdentity_ne_empty env
  · exact acquireIdentity_ne_empty _

/-- C5 : acquisition attempts the modes in the fixed order `cdp`
(introspected), `remote_js` (derived), `default` (fallback), and `fetch()`
memoizes its first result together with its mode: any later `fetch()`, in
any environment, returns the memoized identity with an unchanged state. -/
theorem fetch_order_and_memoization :
    (∀ env : IdentityEnv, ∀ d, env.cdp = some d →
       (acquireIdentity env).mode = SuperPropertiesMode.cdp)
    ∧ (∀ env : IdentityEnv, ∀ b, env.cdp = none → env.remoteJs = some b →
       (acquireIdentity env).mode = SuperPropertiesMode.remote_js)
    ∧ (∀ env : IdentityEnv, env.cdp = none → env.remoteJs = none →
       (acquireIdentity env).mode = SuperPropertiesMode.default)
    ∧ (∀ st : ProviderState, ∀ env env' : IdentityEnv,
       fetchIdentity (fetchIdentity st env).2 env'
         = ((fetchIdentity st env).1, (fetchIdentity st env).2)) := by
  refine ⟨?_, ?_, ?_, ?_⟩
  · intro env d hd
    unfold acquireIdentity
    rw [hd]
  · intro env b hc hr
    unfold acquireIdentity
    rw [hc, hr]
  · intro env hc hr
    unfold acquireIdentity
    rw [hc, hr]
  · intro st env env'
    rcases hm : st.memo with _ | ident
    · simp [fetchIdentity, hm]
    · simp [fetchIdentity, hm]

/-- Concrete instance of C5: with an introspection result available the
mode is `cdp`; with only a derived build number it is `remote_js`; with
neither it is `default`; and a second `fetch()` under a now-different
environment still returns the first result unchanged. -/
theorem fetch_order_and_memoization_witness :
    (acquireIdentity
        { cdp := some ⟨366000, "lid", "hid", "sig"⟩, remoteJs := none }).mode
      = SuperPropertiesMode.cdp
    ∧ (acquireIdentity { cdp := none, remoteJs := some 366001 }).mode
      = SuperPropertiesMode.remote_js
    ∧ (acquireIdentity { cdp := none, remoteJs := none }).mode
      = SuperPropertiesMode.default
    ∧ fetchIdentity
        (fetchIdentity initProviderState { cdp := none, remoteJs := none }).2
        { cdp := some ⟨366000, "lid", "hid", "sig"⟩, remoteJs := none }
      = ((fetchIdentity initProviderState { cdp := none, remoteJs := none }).1,
         (fetchIdentity initProviderState { cdp := none, remoteJs := none }).2) :=
  ⟨fetch_order_and_memoization.1 _ ⟨366000, "lid", "hid", "sig"⟩ rfl,
   fetch_order_and_memoization.2.1 _ 366001 rfl rfl,
   fetch_order_and_memoization.2.2.1 _ rfl rfl,
   fetch_order_and_memoization.2.2.2 _ _ _⟩

/-! ## CDP probe status (spec §4.2 `probe()`, claim C6)

The frontend wrapper `checkCdp` is taken from `src/views/Settings.vue`
lines 105-117: it awaits `checkCdpStatus` and converts a thrown error into
a `CdpStatus` record carrying the failure in its `error` field.  The
backend `check_cdp_status` command is modelled from the spec as a
status-only probe. -/

/-- The `CdpStatus` record (`src/api/tauri.ts` lines 235-240). -/
structure CdpStatus where
  available : Bool
  connected : Bool
  target_title : Option String
  error : Option String
deriving DecidableEq

/-- The observable outcome of reaching for the remote-debugging endpoint:
whether it is reachable, the attached target's title when one is
connected, and the message used to describe a failure. -/
structure CdpProbeEnv where
  endpointReachable : Bool
  targetTitle : Option String
  failureMessage : String
deriving DecidableEq

/-- Modelled from the spec: `probe() -> ConnectionStatus{available,
connected, target_title|null, error|null}` "does not raise — status-only"
(spec §4.2); an unreachable endpoint is reported through the `error`
field. -/
def probeCdp (env : CdpProbeEnv) : CdpStatus :=
  if env.endpointReachable then
    { available := true, connected := env.targetTitle.isSome,
      target_title := env.targetTitle, error := none }
  else
    { available := false, connected := false,
      target_title := none, error := some env.failureMessage }

/-- `checkCdp` from `src/views/Settings.vue` lines 105-117: the backend
call's outcome (value or thrown error) is always turned into a
`CdpStatus`; a thrown error `e` becomes
`{available:false, connected:false, target_title:null, error:String(e)}`. -/
def checkCdp (backendOutcome : Except String CdpStatus) : CdpStatus :=
  match backendOutcome with
  | Except.ok st => st
  | Except.error e =>
    { available := false, connected := false,
      target_title := none, error := some e }

/-- C6 : the probe never raises to its caller: the backend probe yields a
status record for every environment, with a failure reported only through
the `error` field, and the frontend `checkCdp` turns even a thrown
underlying error into such a record. -/
theorem probe_status_only :
    (∀ env : CdpProbeEnv,
       ((probeCdp env).error = none ∧ (probeCdp env).available = true)
       ∨ ((probeCdp env).error = some env.failureMessage
          ∧ (probeCdp env).available = false
          ∧ (probeCdp env).connected = false))
    ∧ (∀ e : String,
       checkCdp (Except.error e)
         = { available := false, connected := false,
             target_title := none, error := some e })
    ∧ (∀ st : CdpStatus, checkCdp (Except.ok st) = st) := by
  refine ⟨?_, fun e => rfl, fun st => rfl⟩
  intro env
  unfold probeCdp
  rcases henv : env.endpointReachable with _ | _
  · right
    simp
  · left
    simp

/-! ## Progress events and the active-quest panel (claims C7 & C8)

The active-quest panel (sources `src/unnamed/part_000`) renders the
confirmed (submitted) progress — `submittedTimeText` and the integral
percentage — from `activeQuestProgress`, and the pending local layer from
`localProgress`.  JavaScript numbers are modelled as rationals. -/

/-- JavaScript truncation toward zero, as used by the `%` operator. -/
def jsTrunc (q : ℚ) : ℤ :=
  if 0 ≤ q then ⌊q⌋ else ⌈q⌉

/-- The JavaScript remainder operator on numbers:
`a % b = a - b * trunc(a / b)`. -/
def jsMod (a b : ℚ) : ℚ :=
  a - b * (jsTrunc (a / b) : ℚ)

/-- `String.prototype.padStart(2, '0')`. -/
def padStart2 (str : String) : String :=
  if str.length < 2 then String.mk (List.replicate (2 - str.length) '0') ++ str
  else str

/-- `formatTime` from the active-quest panel (`src/unnamed/part_000` lines
14-18): minutes and zero-padded seconds. -/
def formatTime (seconds : ℚ) : String :=
  let m : ℤ := ⌊seconds / 60⌋
  let s : ℤ := ⌊jsMod seconds 60⌋
  toString m ++ ":" ++ padStart2 (toString s)

/-- The slice of the quests store the active-quest panel reads. -/
structure QuestsStoreView where
  activeQuestTargetDuration : ℚ
  activeQuestProgress : ℚ
  localProgress : ℚ

/-- The panel's reconstruction of confirmed seconds from a 0-100 progress
number (`src/unnamed/part_000` line 23):
`currentSeconds = (progress / 100) * total`. -/
def reconstructedSeconds (progress total : ℚ) : ℚ :=
  progress / 100 * total

/-- `submittedTimeText` from the active-quest panel
(`src/unnamed/part_000` lines 20-25). -/
def submittedTimeText (st : QuestsStoreView) : String :=
  formatTime (reconstructedSeconds st.activeQuestProgress st.activeQuestTargetDuration)
    ++ " / " ++ formatTime st.activeQuestTargetDuration

/-- The percentage figure shown next to the bar
(`src/unnamed/part_000` line 49): `Math.floor(activeQuestProgress)`. -/
def percentFigure (st : QuestsStoreView) : ℤ :=
  ⌊st.activeQuestProgress⌋

/-- Width of the submitted (confirmed, blue) layer of the dual-layer
progress bar (`src/unnamed/part_000` line 62). -/
def submittedLayerWidth (st : QuestsStoreView) : ℚ :=
  st.activeQuestProgress

/-- Width of the local accumulated (pending, green) layer of the
dual-layer progress bar (`src/unnamed/part_000` line 57). -/
def localLayerWidth (st : QuestsStoreView) : ℚ :=
  st.localProgress

/-- Modelled from the spec: every tick emits progress normalized to the
0-100 range (spec §4.4 "Every tick emits progress (0–100 normalized)" and
§6 "event stream of progress: number 0–100"). -/
def emittedProgress (submitted target : ℚ) : ℚ :=
  min 100 (max 0 (submitted / target * 100))

/-- C7 : every progress event carries a number in the range 0-100, so the
frontend reconstruction `(progress / 100) * target_duration` never exceeds
the target duration. -/
theorem progress_event_normalized (submitted target : ℚ) (ht : 0 ≤ target) :
    0 ≤ emittedProgress submitted target
    ∧ emittedProgress submitted target ≤ 100
    ∧ reconstructedSeconds (emittedProgress submitted target) target ≤ target := by
  refine ⟨le_min (by norm_num) (le_max_left 0 _), min_le_left _ _, ?_⟩
  have hp : emittedProgress submitted target ≤ 100 := min_le_left _ _
  have hdiv : emittedProgress submitted target / 100 ≤ 1 := by
    rw [div_le_one (by norm_num : (0:ℚ) < 100)]
    exact hp
  calc emittedProgress submitted target / 100 * target
      ≤ 1 * target := mul_le_mul_of_nonneg_right hdiv ht
    _ = target := one_mul target

/-- Concrete instance of C7: 300 of 600 seconds submitted emits a value in
the 0-100 range whose reconstruction stays below the 600-second target. -/
theorem progress_event_normalized_witness :
    0 ≤ emittedProgress 300 600
    ∧ emittedProgress 300 600 ≤ 100
    ∧ reconstructedSeconds (emittedProgress 300 600) 600 ≤ 600 :=
  progress_event_normalized 300 600 (by norm_num)

/-- C8 : the confirmed-progress outputs — the submitted time text, the
percentage figure and the submitted bar layer — are computed from
`activeQuestProgress` alone: two store states agreeing on the submitted
progress and target but differing in pending `localProgress` render
identical confirmed outputs, the pending layer being a separate value. -/
theorem confirmed_outputs_ignore_local (s₁ s₂ : QuestsStoreView)
    (hp : s₁.activeQuestProgress = s₂.activeQuestProgress)
    (ht : s₁.activeQuestTargetDuration = s₂.activeQuestTargetDuration) :
    submittedTimeText s₁ = submittedTimeText s₂
    ∧ percentFigure s₁ = percentFigure s₂
    ∧ submittedLayerWidth s₁ = submittedLayerWidth s₂
    ∧ localLayerWidth s₁ = s₁.localProgress := by
  unfold submittedTimeText percentFigure submittedLayerWidth localLayerWidth
  rw [hp, ht]
  exact ⟨rfl, rfl, rfl, rfl⟩

/-- Concrete instance of C8: two states with equal submitted progress (50%)
and target (600 s) but pending layers 90% versus 10% show the same
confirmed time text, percentage and submitted bar width. -/
theorem confirmed_outputs_ignore_local_witness :
    submittedTimeText ⟨600, 50, 90⟩ = submittedTimeText ⟨600, 50, 10⟩
    ∧ percentFigure ⟨600, 50, 90⟩ = percentFigure ⟨600, 50, 10⟩
    ∧ submittedLayerWidth ⟨600, 50, 90⟩ = submittedLayerWidth ⟨600, 50, 10⟩
    ∧ localLayerWidth ⟨600, 50, 90⟩ = (⟨600, 50, 90⟩ : QuestsStoreView).localProgress :=
  confirmed_outputs_ignore_local ⟨600, 50, 90⟩ ⟨600, 50, 10⟩ rfl rfl

/-! ## Token rendering and the copy button (claim C9)

The debug view (sources `src/unnamed/part_001`, token card at lines
209-231) renders the bearer token truncated —
`token.substring(0, 20) + '...' + token.substring(token.length - 10)` —
but its Copy button calls `copyToClipboard(authStore.token, 'token')`
(line 224), which writes the untruncated text to the system clipboard
(lines 173-183). -/

/-- The token card's on-screen rendering (`src/unnamed/part_001` line
221); `String.take`/`String.drop` clamp exactly as `substring` does. -/
def tokenDisplayText (token : String) : String :=
  token.take 20 ++ "..." ++ token.drop (token.length - 10)

/-- The text handed to `navigator.clipboard.writeText` by the token card's
Copy button (`src/unnamed/part_001` lines 173-183 and 224): the full
token. -/
def tokenClipboardText (token : String) : String :=
  token

/-- A token of realistic shape and length (64 characters). -/
def sampleToken : String :=
  "MTA4NjIzNDU2Nzg5MDEyMzQ1.GhIjKl.AbCdEfGhIjKlMnOpQrStUvWxYz01234"

set_option maxRecDepth 8000 in
/-- C9 is false on the code: the Copy button's clipboard output is the
full bearer secret verbatim, not a truncated form, even though the
rendered text is truncated. -/
theorem token_output_counterexample :
    tokenClipboardText sampleToken = sampleToken
    ∧ 33 < sampleToken.length
    ∧ tokenDisplayText sampleToken ≠ sampleToken := by
  refine ⟨rfl, ?_, ?_⟩
  · decide
  · decide

lemma string_length_take (s : String) (n : Nat) :
    (s.take n).length = min n s.length := by
  rw [← String.length_data, String.data_take, List.length_take, String.length_data]

lemma string_length_drop (s : String) (n : Nat) :
    (s.drop n).length = s.length - n := by
  rw [← String.length_data, String.data_drop, List.length_drop, String.length_data]

/-- C9 (amended) : the token's on-screen rendering is truncated — for any
token longer than the 33 characters of the rendered form, the display
differs from the full secret — but the Copy button's clipboard output is
always the verbatim token, so only the displayed text, not every output,
is truncated. -/
theorem token_display_truncated_amended :
    (∀ token : String, tokenClipboardText token = token)
    ∧ (∀ token : String, 33 < token.length → tokenDisplayText token ≠ token) := by
  refine ⟨fun token => rfl, ?_⟩
  intro token h heq
  have hlen := congrArg String.length heq
  rw [tokenDisplayText, String.length_append, String.length_append,
    string_length_take, string_length_drop,
    show ("..." : String).length = 3 from rfl] at hlen
  omega

set_option maxRecDepth 8000 in
/-- Concrete instance of the amended C9 at the sample token. -/
theorem token_display_truncated_witness :
    tokenClipboardText sampleToken = sampleToken
    ∧ tokenDisplayText sampleToken ≠ sampleToken :=
  ⟨token_display_truncated_amended.1 sampleToken,
   token_display_truncated_amended.2 sampleToken (by decide)⟩

/-! ## Quest queue and single running session (spec §4.4, claim C3)

The active-quest panel (`src/unnamed/part_000` lines 90-115) displays the
store's `questQueue` in order; the queue mutations themselves live in the
Pinia quests store / backend, absent from the sources, and are modelled
from spec §4.4: `accept(quest)` starts immediately when nothing is
`Running`, otherwise appends to the FIFO queue rejecting duplicate ids
silently, and the head of the queue is promoted when the active session
terminates. -/

/-- A quest as far as queueing is concerned: its server id
(`Quest.id` in `src/api/tauri.ts` line 13). -/
structure QuestInfo where
  id : String
deriving DecidableEq

/-- The Quest Session Controller's owned state: the at-most-one active
(`Running`) session and the FIFO queue of pending quests (spec §3). -/
structure ControllerState where
  active : Option QuestInfo
  queue : List QuestInfo
deriving DecidableEq

/-- Modelled from the spec: `accept(quest)`: "if no session is `Running`,
starts immediately; else appends to QuestQueue (reject duplicate ids
silently — idempotent)" (spec §4.4). -/
def acceptQuest (st : ControllerState) (q : QuestInfo) : ControllerState :=
  match st.active with
  | none => { st with active := some q }
  | some _ =>
    if q.id ∈ st.queue.map QuestInfo.id then st
    else { st with queue := st.queue ++ [q] }

/-- Accept a sequence of quests in order. -/
def acceptAll (st : ControllerState) : List QuestInfo → ControllerState
  | [] => st
  | q :: qs => acceptAll (acceptQuest st q) qs

/-- Modelled from the spec: when the active session terminates, the next
queued quest (the queue head) is promoted to `Running` (spec §3, §4.4). -/
def finishActive (st : ControllerState) : ControllerState :=
  match st.queue with
  | [] => { st with active := none }
  | q :: rest => { active := some q, queue := rest }

/-- Number of sessions in the `Running` state. -/
def runningCount (st : ControllerState) : Nat :=
  match st.active with
  | none => 0
  | some _ => 1

lemma acceptAll_spec (qs : List QuestInfo) (st : ControllerState)
    (ha : st.active.isSome = true)
    (hnd : (st.queue.map QuestInfo.id).Nodup) :
    (acceptAll st qs).active = st.active
    ∧ ((acceptAll st qs).queue.map QuestInfo.id).Nodup
    ∧ ((acceptAll st qs).queue.map QuestInfo.id).toFinset
        = (st.queue.map QuestInfo.id).toFinset ∪ (qs.map QuestInfo.id).toFinset
    ∧ ∃ l, (acceptAll st qs).queue = st.queue ++ l ∧ l.Sublist qs := by
  induction qs generalizing st with
  | nil =>
    refine ⟨rfl, hnd, by simp [acceptAll], [], by simp [acceptAll], List.Sublist.slnil⟩
  | cons q qs ih =>
    rcases hact : st.active with _ | a
    · rw [hact] at ha
      simp at ha
    · by_cases hmem : q.id ∈ st.queue.map QuestInfo.id
      · have hstep : acceptQuest st q = st := by
          unfold acceptQuest
          rw [hact, if_pos hmem]
        rw [acceptAll, hstep]
        obtain ⟨h1, h2, h3, l, hl, hsub⟩ := ih st ha hnd
        refine ⟨h1.trans hact, h2, ?_, l, hl, hsub.cons q⟩
        rw [h3]
        have hqin : q.id ∈ (st.queue.map QuestInfo.id).toFinset :=
          List.mem_toFinset.mpr hmem
        ext x
        simp only [List.map_cons, List.toFinset_cons, Finset.mem_union,
          Finset.mem_insert]
        constructor
        · intro hx
          rcases hx with hx | hx
          · exact Or.inl hx
          · exact Or.inr (Or.inr hx)
        · intro hx
          rcases hx with hx | hx | hx
          · exact Or.inl hx
          · exact Or.inl (hx ▸ List.mem_toFinset.mpr hmem)
          · exact Or.inr hx
      · have hstep : acceptQuest st q = { st with queue := st.queue ++ [q] } := by
          unfold acceptQuest
          rw [hact, if_neg hmem]
        rw [acceptAll, hstep]
        have hnd' : (((st.queue ++ [q]).map QuestInfo.id)).Nodup := by
          rw [List.map_append]
          rw [List.nodup_append]
          refine ⟨hnd, by simp, ?_⟩
          intro x hx
          simp only [List.map_cons, List.map_nil, List.mem_cons,
            List.not_mem_nil, or_false]
          intro hxq
          exact hmem (hxq ▸ hx)
        obtain ⟨h1, h2, h3, l, hl, hsub⟩ := ih { st with queue := st.queue ++ [q] } ha hnd'
        refine ⟨h1.trans hact, h2, ?_, [q] ++ l, ?_, ?_⟩
        · rw [h3]
          ext x
          simp only [List.map_append, List.toFinset_append, List.map_cons,
            List.map_nil, List.toFinset_cons, List.toFinset_nil,
            Finset.mem_union, Finset.mem_insert, Finset.not_mem_empty,
            or_false]
          tauto
        · rw [hl]
          simp
        · exact hsub.cons₂ q

/-- C3 : at most one session is `Running` at any instant; while one is
running, `accept` is idempotent and rejects duplicate ids silently, so
after accepting a sequence of quests the queue holds their distinct ids
(length N minus duplicates) in acceptance order, and termination promotes
exactly the queue head. -/
theorem single_running_fifo_queue :
    (∀ st : ControllerState, runningCount st ≤ 1)
    ∧ (∀ st : ControllerState, ∀ q : QuestInfo, st.active.isSome = true →
        acceptQuest (acceptQuest st q) q = acceptQuest st q)
    ∧ (∀ st : ControllerState, ∀ qs : List QuestInfo,
        st.active.isSome = true → st.queue = [] →
        (acceptAll st qs).queue.length = (qs.map QuestInfo.id).dedup.length)
    ∧ (∀ st : ControllerState, ∀ qs : List QuestInfo,
        st.active.isSome = true → (st.queue.map QuestInfo.id).Nodup →
        ((acceptAll st qs).queue.map QuestInfo.id).Nodup
        ∧ ∃ l, (acceptAll st qs).queue = st.queue ++ l ∧ l.Sublist qs)
    ∧ (∀ st : ControllerState, ∀ q : QuestInfo, ∀ rest : List QuestInfo,
        st.queue = q :: rest →
        (finishActive st).active = some q ∧ (finishActive st).queue = rest) := by
  refine ⟨?_, ?_, ?_, ?_, ?_⟩
  · intro st
    unfold runningCount
    rcases st.active with _ | a
    · exact Nat.zero_le 1
    · exact le_rfl
  · intro st q ha
    rcases hact : st.active with _ | a
    · rw [hact] at ha
      simp at ha
    · by_cases hmem : q.id ∈ st.queue.map QuestInfo.id
      · have hstep : acceptQuest st q = st := by
          unfold acceptQuest
          rw [hact, if_pos hmem]
        rw [hstep]
        exact hstep
      · have hstep : acceptQuest st q = { st with queue := st.queue ++ [q] } := by
          unfold acceptQuest
          rw [hact, if_neg hmem]
        rw [hstep]
        unfold acceptQuest
        simp [hact]
  · intro st qs ha hq
    obtain ⟨h1, h2, h3, l, hl, hsub⟩ := acceptAll_spec qs st ha (by rw [hq]; simp)
    calc (acceptAll st qs).queue.length
        = ((acceptAll st qs).queue.map QuestInfo.id).length := by
          rw [List.length_map]
      _ = ((acceptAll st qs).queue.map QuestInfo.id).toFinset.card :=
          (List.toFinset_card_of_nodup h2).symm
      _ = ((qs.map QuestInfo.id).toFinset).card := by
          rw [h3, hq]
          simp
      _ = (qs.map QuestInfo.id).dedup.length := List.card_toFinset _
  · intro st qs ha hnd
    obtain ⟨h1, h2, h3, l, hl, hsub⟩ := acceptAll_spec qs st ha hnd
    exact ⟨h2, l, hl, hsub⟩
  · intro st q rest hqueue
    unfold finishActive
    rw [hqueue]
    exact ⟨rfl, rfl⟩

/-- Concrete instance of C3: with quest "a" running, accepting
["b", "c", "b"] yields a queue of 2 distinct quests, re-accepting "b" is a
no-op, and finishing promotes the queue head. -/
theorem single_running_fifo_queue_witness :
    runningCount ⟨some ⟨"a"⟩, []⟩ ≤ 1
    ∧ acceptQuest (acceptQuest ⟨some ⟨"a"⟩, []⟩ ⟨"b"⟩) ⟨"b"⟩
        = acceptQuest ⟨some ⟨"a"⟩, []⟩ ⟨"b"⟩
    ∧ (acceptAll ⟨some ⟨"a"⟩, []⟩ [⟨"b"⟩, ⟨"c"⟩, ⟨"b"⟩]).queue.length
        = (([⟨"b"⟩, ⟨"c"⟩, ⟨"b"⟩] : List QuestInfo).map QuestInfo.id).dedup.length
    ∧ (finishActive ⟨some ⟨"a"⟩, [⟨"b"⟩]⟩).active = some ⟨"b"⟩ :=
  ⟨single_running_fifo_queue.1 _,
   single_running_fifo_queue.2.1 _ _ rfl,
   single_running_fifo_queue.2.2.1 _ _ rfl rfl,
   (single_running_fifo_queue.2.2.2.2 ⟨some ⟨"a"⟩, [⟨"b"⟩]⟩ ⟨"b"⟩ [] rfl).1⟩

/-! ## Debug-mode unlock by version taps (claim C10)

`handleVersionTap` is embedded from `src/views/Settings.vue` lines 55-77:
a tap more than 2000 ms after the previous one resets the counter to 0
before the increment; the hint flag is set while the incremented count is
in [4, 7); reaching 7 enables debug mode, zeroes the counter and clears
the hint.  Timestamps (`Date.now()`) are modelled as integers in
milliseconds. -/

/-- The component state read and written by `handleVersionTap`
(`src/views/Settings.vue` lines 50-53). -/
structure TapState where
  debugModeEnabled : Bool
  versionTapCount : Nat
  lastTapTime : Int
  showDebugUnlockHint : Bool
deriving DecidableEq

/-- The initial state of the Settings view (`src/views/Settings.vue`
lines 50-53): debug mode off, zero taps, last tap time 0, no hint. -/
def initTapState : TapState :=
  { debugModeEnabled := false, versionTapCount := 0, lastTapTime := 0,
    showDebugUnlockHint := false }

/-- `handleVersionTap` from `src/views/Settings.vue` lines 55-77, taking
the current `Date.now()` value as `now`. -/
def handleVersionTap (s : TapState) (now : Int) : TapState :=
  let count0 := if now - s.lastTapTime > 2000 then 0 else s.versionTapCount
  let count1 := count0 + 1
  let hint1 := if 4 ≤ count1 ∧ count1 < 7 then true else s.showDebugUnlockHint
  if 7 ≤ count1 then
    { debugModeEnabled := true, versionTapCount := 0, lastTapTime := now,
      showDebugUnlockHint := false }
  else
    { debugModeEnabled := s.debugModeEnabled, versionTapCount := count1,
      lastTapTime := now, showDebugUnlockHint := hint1 }

/-- Process a sequence of taps in order. -/
def runTaps (s : TapState) : List Int → TapState
  | [] => s
  | t :: ts => runTaps (handleVersionTap s t) ts

/-- The counter value produced by a tap at time `now`: reset to 0 on a gap
of more than 2000 ms, then incremented. -/
def tapNewCount (s : TapState) (now : Int) : Nat :=
  (if now - s.lastTapTime > 2000 then 0 else s.versionTapCount) + 1

lemma handleVersionTap_eq (s : TapState) (now : Int) :
    handleVersionTap s now =
      if 7 ≤ tapNewCount s now then
        { debugModeEnabled := true, versionTapCount := 0, lastTapTime := now,
          showDebugUnlockHint := false }
      else
        { debugModeEnabled := s.debugModeEnabled,
          versionTapCount := tapNewCount s now, lastTapTime := now,
          showDebugUnlockHint :=
            s.showDebugUnlockHint || decide (4 ≤ tapNewCount s now) } := by
  unfold handleVersionTap tapNewCount
  by_cases hg : now - s.lastTapTime > 2000
  · simp [if_pos hg]
  · simp only [if_neg hg]
    by_cases h7 : 7 ≤ s.versionTapCount + 1
    · simp only [if_pos h7]
    · simp only [if_neg h7]
      have hlt : s.versionTapCount + 1 < 7 := Nat.lt_of_not_le h7
      by_cases h4 : 4 ≤ s.versionTapCount + 1
      · simp [h4, hlt]
      · simp [h4]

/-- C10 is false on the code as claimed: four quick taps (times 0, 100,
200, 300 ms) show the unlock hint, and a fifth tap after a long gap
(3000 ms) restarts the count at 1 but leaves the hint shown — the hint is
visible while the count is 1, outside the claimed [4, 6] range. -/
theorem tap_hint_counterexample :
    (runTaps initTapState [0, 100, 200, 300, 3000]).showDebugUnlockHint = true
    ∧ (runTaps initTapState [0, 100, 200, 300, 3000]).versionTapCount = 1
    ∧ (runTaps initTapState [0, 100, 200, 300, 3000]).debugModeEnabled = false := by
  decide

lemma runTaps_debug_of_debug (ts : List Int) (s : TapState)
    (h : s.debugModeEnabled = true) : (runTaps s ts).debugModeEnabled = true := by
  induction ts generalizing s with
  | nil => exact h
  | cons t ts ih =>
    rw [runTaps]
    apply ih
    rw [handleVersionTap_eq]
    by_cases h7 : 7 ≤ tapNewCount s t
    · rw [if_pos h7]
    · rw [if_neg h7]
      exact h

/-- Boolean mirror of the unlock dynamics: starting from a stored count
`c` and previous tap time `prev`, does some tap of `ts` reach count 7? -/
def tapUnlockAux (c : Nat) (prev : Int) : List Int → Bool
  | [] => false
  | t :: ts =>
    let c1 := if t - prev > 2000 then 1 else c + 1
    decide (7 ≤ c1) || tapUnlockAux c1 t ts

lemma runTaps_debug_eq (ts : List Int) (s : TapState) :
    (runTaps s ts).debugModeEnabled
      = (s.debugModeEnabled || tapUnlockAux s.versionTapCount s.lastTapTime ts) := by
  induction ts generalizing s with
  | nil => simp [runTaps, tapUnlockAux]
  | cons t ts ih =>
    rw [runTaps, tapUnlockAux]
    have hc : (if t - s.lastTapTime > 2000 then 1 else s.versionTapCount + 1)
        = tapNewCount s t := by
      unfold tapNewCount
      by_cases hg : t - s.lastTapTime > 2000
      · rw [if_pos hg, if_pos hg]
      · rw [if_neg hg, if_neg hg]
    rw [hc]
    by_cases h7 : 7 ≤ tapNewCount s t
    · have hdone : (runTaps (handleVersionTap s t) ts).debugModeEnabled = true := by
        apply runTaps_debug_of_debug
        rw [handleVersionTap_eq, if_pos h7]
      rw [hdone]
      have h7d : decide (7 ≤ tapNewCount s t) = true := decide_eq_true h7
      rw [h7d]
      simp
    · rw [ih]
      have hstep : handleVersionTap s t =
          { debugModeEnabled := s.debugModeEnabled,
            versionTapCount := tapNewCount s t, lastTapTime := t,
            showDebugUnlockHint :=
              s.showDebugUnlockHint || decide (4 ≤ tapNewCount s t) } := by
        rw [handleVersionTap_eq, if_neg h7]
      rw [hstep]
      have h7d : decide (7 ≤ tapNewCount s t) = false := decide_eq_false h7
      rw [h7d]
      simp

/-- Two consecutive taps at most 2000 ms apart. -/
def TightPair (a b : Int) : Prop := b - a ≤ 2000

/-- Seven taps somewhere in the sequence with each consecutive pair at
most 2000 ms apart. -/
def HasTightWindow (ts : List Int) : Prop :=
  ∃ l₁ mid l₂, ts = l₁ ++ mid ++ l₂ ∧ mid.length = 7 ∧ mid.Chain' TightPair

/-- A prefix of taps that, continuing an unfinished streak of `c` taps
whose last tap was at `prev`, reaches the unlock count of 7. -/
def TightCredit (c : Nat) (prev : Int) (ts : List Int) : Prop :=
  ∃ pre post, ts = pre ++ post ∧ 1 ≤ pre.length ∧ 7 ≤ c + pre.length
    ∧ (prev :: pre).Chain' TightPair

/-- A tight window of 7 taps starting with the tap at time `t` followed by
the first six taps of `ts`. -/
def WindowAt0 (t : Int) (ts : List Int) : Prop :=
  ∃ pre post, ts = pre ++ post ∧ pre.length = 6 ∧ (t :: pre).Chain' TightPair

lemma hasTightWindow_nil : ¬ HasTightWindow [] := by
  rintro ⟨l₁, mid, l₂, heq, hlen, _⟩
  have := congrArg List.length heq
  simp at this
  omega

lemma tightCredit_nil (c : Nat) (prev : Int) : ¬ TightCredit c prev [] := by
  rintro ⟨pre, post, heq, h1, _, _⟩
  have := congrArg List.length heq
  simp at this
  omega

lemma tightCredit_cons_tight {t prev : Int} {ts : List Int} {c : Nat}
    (h : t - prev ≤ 2000) :
    TightCredit c prev (t :: ts) ↔ 7 ≤ c + 1 ∨ TightCredit (c + 1) t ts := by
  constructor
  · rintro ⟨pre, post, heq, h1, h7, hchain⟩
    rcases pre with _ | ⟨a, pre'⟩
    · simp at h1
    · obtain ⟨hat1, hat2⟩ : a = t ∧ ts = pre' ++ post := by
        rw [List.cons_append] at heq
        injection heq with ha hb
        exact ⟨ha.symm, hb⟩
      rcases pre' with _ | ⟨b, pre''⟩
      · left
        simpa using h7
      · right
        refine ⟨b :: pre'', post, hat2, by simp, ?_, ?_⟩
        · simp only [List.length_cons] at h7 ⊢
          omega
        · have := hchain.tail
          simpa [hat1] using this
  · rintro (h7 | ⟨pre, post, heq, h1, h7, hchain⟩)
    · refine ⟨[t], ts, rfl, by simp, by simpa using h7, ?_⟩
      exact List.chain'_cons.mpr ⟨h, List.chain'_singleton t⟩
    · refine ⟨t :: pre, post, by rw [heq, List.cons_append], by simp, ?_, ?_⟩
      · simp only [List.length_cons]
        omega
      · exact List.chain'_cons.mpr ⟨h, hchain⟩

lemma tightCredit_cons_gap {t prev : Int} {ts : List Int} {c : Nat}
    (h : t - prev > 2000) : ¬ TightCredit c prev (t :: ts) := by
  rintro ⟨pre, post, heq, h1, _, hchain⟩
  rcases pre with _ | ⟨a, pre'⟩
  · simp at h1
  · obtain ⟨hat, -⟩ : a = t ∧ ts = pre' ++ post := by
      injection heq with ha hb
      exact ⟨ha.symm, hb⟩
    have htp : TightPair prev a := (List.chain'_cons.mp hchain).1
    rw [hat] at htp
    unfold TightPair at htp
    omega

lemma window_cons (t : Int) (ts : List Int) :
    HasTightWindow (t :: ts) ↔ HasTightWindow ts ∨ WindowAt0 t ts := by
  constructor
  · rintro ⟨l₁, mid, l₂, heq, hlen, hchain⟩
    rcases l₁ with _ | ⟨a, l₁'⟩
    · rcases mid with _ | ⟨m, mid'⟩
      · simp at hlen
      · obtain ⟨hmt, hts⟩ : m = t ∧ ts = mid' ++ l₂ := by
          rw [List.nil_append, List.cons_append] at heq
          injection heq with ha hb
          exact ⟨ha.symm, hb⟩
        right
        refine ⟨mid', l₂, hts, by simpa using hlen, ?_⟩
        rw [← hmt]
        exact hchain
    · obtain ⟨hat, hts⟩ : a = t ∧ ts = l₁' ++ (mid ++ l₂) := by
        rw [List.cons_append, List.cons_append] at heq
        injection heq with ha hb
        exact ⟨ha.symm, by rw [hb, List.append_assoc]⟩
      left
      exact ⟨l₁', mid, l₂, by rw [hts, List.append_assoc], hlen, hchain⟩
  · rintro (⟨l₁, mid, l₂, heq, hlen, hchain⟩ | ⟨pre, post, heq, hlen, hchain⟩)
    · exact ⟨t :: l₁, mid, l₂, by rw [heq]; rfl, hlen, hchain⟩
    · exact ⟨[], t :: pre, post, by rw [heq]; rfl, by simp [hlen], hchain⟩

lemma windowAt0_tightCredit (c : Nat) (hc : 1 ≤ c) {t : Int} {ts : List Int}
    (h : WindowAt0 t ts) : TightCredit c t ts := by
  obtain ⟨pre, post, heq, hlen, hchain⟩ := h
  exact ⟨pre, post, heq, by omega, by omega, hchain⟩

lemma tightCredit_one_windowAt0 {t : Int} {ts : List Int}
    (h : TightCredit 1 t ts) : WindowAt0 t ts := by
  obtain ⟨pre, post, heq, h1, h7, hchain⟩ := h
  have h6 : 6 ≤ pre.length := by omega
  refine ⟨pre.take 6, pre.drop 6 ++ post, ?_, ?_, ?_⟩
  · rw [heq, ← List.append_assoc, List.take_append_drop]
  · rw [List.length_take]
    omega
  · have := hchain.take 7
    rwa [List.take_succ_cons] at this

lemma tightCredit_zero_window {prev : Int} {ts : List Int}
    (h : TightCredit 0 prev ts) : HasTightWindow ts := by
  obtain ⟨pre, post, heq, h1, h7, hchain⟩ := h
  have h7' : 7 ≤ pre.length := by omega
  refine ⟨[], pre.take 7, pre.drop 7 ++ post, ?_, ?_, ?_⟩
  · rw [heq, List.nil_append, ← List.append_assoc, List.take_append_drop]
  · rw [List.length_take]
    omega
  · exact hchain.tail.take 7

lemma tapUnlockAux_iff (ts : List Int) :
    ∀ c prev, tapUnlockAux c prev ts = true
      ↔ TightCredit c prev ts ∨ HasTightWindow ts := by
  induction ts with
  | nil =>
    intro c prev
    rw [tapUnlockAux]
    simp only [Bool.false_eq_true, false_iff]
    rintro (hcr | hw)
    · exact tightCredit_nil c prev hcr
    · exact hasTightWindow_nil hw
  | cons t ts ih =>
    intro c prev
    rw [tapUnlockAux]
    by_cases hg : t - prev > 2000
    · rw [if_pos hg]
      have hd : decide (7 ≤ (1 : Nat)) = false := rfl
      rw [hd, Bool.false_or, ih 1 t]
      constructor
      · rintro (hcr | hw)
        · exact Or.inr ((window_cons t ts).mpr (Or.inr (tightCredit_one_windowAt0 hcr)))
        · exact Or.inr ((window_cons t ts).mpr (Or.inl hw))
      · rintro (hcr | hw)
        · exact absurd hcr (tightCredit_cons_gap hg)
        · rcases (window_cons t ts).mp hw with hw' | h0
          · exact Or.inr hw'
          · exact Or.inl (windowAt0_tightCredit 1 le_rfl h0)
    · rw [if_neg hg]
      have htight : t - prev ≤ 2000 := by omega
      rw [Bool.or_eq_true, decide_eq_true_eq, ih (c + 1) t,
        tightCredit_cons_tight htight, window_cons t ts]
      constructor
      · rintro (h7 | hcr | hw)
        · exact Or.inl (Or.inl h7)
        · exact Or.inl (Or.inr hcr)
        · exact Or.inr (Or.inl hw)
      · rintro ((h7 | hcr) | hw | h0)
        · exact Or.inl h7
        · exact Or.inr (Or.inl hcr)
        · exact Or.inr (Or.inr hw)
        · exact Or.inr (Or.inl (windowAt0_tightCredit (c + 1) (Nat.le_add_left 1 c) h0))

/-- C10 (amended) : debug mode is enabled exactly when 7 taps have
occurred with each consecutive pair separated by at most 2000 ms (a longer
gap restarts the count at 1); upon unlocking, the counter resets to 0 and
the hint is cleared; but outside unlocking the hint, once set at counts
4-6, is sticky — it is shown from the first time the count reaches 4 until
unlock, and a gap-induced restart does not clear it, so it can remain
shown at counts below 4. -/
theorem tap_debug_unlock_amended :
    (∀ ts : List Int,
       (runTaps initTapState ts).debugModeEnabled = true ↔ HasTightWindow ts)
    ∧ (∀ s : TapState, ∀ now : Int, 7 ≤ tapNewCount s now →
       handleVersionTap s now =
         { debugModeEnabled := true, versionTapCount := 0, lastTapTime := now,
           showDebugUnlockHint := false })
    ∧ (∀ s : TapState, ∀ now : Int, tapNewCount s now < 7 →
       (handleVersionTap s now).showDebugUnlockHint
         = (s.showDebugUnlockHint || decide (4 ≤ tapNewCount s now))) := by
  refine ⟨?_, ?_, ?_⟩
  · intro ts
    rw [runTaps_debug_eq]
    have hfields : initTapState.debugModeEnabled = false ∧
        initTapState.versionTapCount = 0 ∧ initTapState.lastTapTime = 0 :=
      ⟨rfl, rfl, rfl⟩
    rw [hfields.1, hfields.2.1, hfields.2.2, Bool.false_or,
      tapUnlockAux_iff ts 0 0]
    constructor
    · rintro (hcr | hw)
      · exact tightCredit_zero_window hcr
      · exact hw
    · intro hw
      exact Or.inr hw
  · intro s now h7
    rw [handleVersionTap_eq, if_pos h7]
  · intro s now h7
    rw [handleVersionTap_eq, if_neg (Nat.not_le_of_lt h7)]

/-- Concrete instances of the amended C10: a seventh quick tap unlocks and
resets counter and hint; a first tap sets the hint per the sticky rule;
and seven taps at times 0-6 ms satisfy the unlock equivalence. -/
theorem tap_debug_unlock_amended_witness :
    handleVersionTap ⟨false, 6, 0, true⟩ 100 =
      { debugModeEnabled := true, versionTapCount := 0, lastTapTime := 100,
        showDebugUnlockHint := false }
    ∧ (handleVersionTap ⟨false, 0, 0, false⟩ 100).showDebugUnlockHint
        = ((⟨false, 0, 0, false⟩ : TapState).showDebugUnlockHint
           || decide (4 ≤ tapNewCount ⟨false, 0, 0, false⟩ 100))
    ∧ ((runTaps initTapState [0, 1, 2, 3, 4, 5, 6]).debugModeEnabled = true
        ↔ HasTightWindow [0, 1, 2, 3, 4, 5, 6]) :=
  ⟨tap_debug_unlock_amended.2.1 ⟨false, 6, 0, true⟩ 100 (by decide),
   tap_debug_unlock_amended.2.2 ⟨false, 0, 0, false⟩ 100 (by decide),
   tap_debug_unlock_amended.1 [0, 1, 2, 3, 4, 5, 6]⟩

end DQH
